import Mathlib

/-!
Verification of the visitor-counter HTTP handlers of
bradfitz/talk-yapc-asia-2015.

The repository contains several variants of the same ~20-line handler:
`stepn/x.go` (`handleRoot`, counter `var visitors int64`, incremented with
`atomic.AddInt64(&visitors, 1)`) and `demo/demo.go` (`handleHi`, counter
`var visitors int`, incremented with the unsynchronized `visitors++`).
We embed the handlers as pure state-passing functions on the counter,
machine integers as `Int` with explicit two's-complement wrapping, and the
non-atomic increment of `demo` as a two-step (read, write) transition
system so that concurrent interleavings can be examined.
-/

namespace Yapc

/-- Two's-complement wraparound of a mathematical integer to a signed
`w`-bit machine integer: the unique representative in
`[-2^(w-1), 2^(w-1))` congruent mod `2^w`. -/
def wrapI (w : Nat) (x : Int) : Int :=
  (x + 2 ^ (w - 1)) % 2 ^ w - 2 ^ (w - 1)

/-- Signed 64-bit wraparound, the arithmetic of Go `int64`
(`var visitors int64`, stepn/x.go line 14). -/
def wrap64 (x : Int) : Int := wrapI 64 x

/-- An inbound HTTP request, reduced to the parts the handlers inspect:
the method string and the query parameters. -/
structure Request where
  method : String
  params : List (String × String)
  deriving Repr, DecidableEq

/-- `r.FormValue(key)`: the first value of the named query parameter, or
the empty string when the parameter is absent. -/
def formValue (r : Request) (key : String) : String :=
  match r.params.lookup key with
  | some v => v
  | none => ""

/-- The observable response: HTTP status code and body text.  A handler
that never calls `http.Error` or `WriteHeader` responds 200; `http.Error`
responds with the given code and message. -/
structure Response where
  status : Nat
  body : String
  deriving Repr, DecidableEq

/-- `rxOptionalID.MatchString s` for `rxOptionalID = regexp.MustCompile("^\\d*$")`
(stepn/x.go line 16): the whole string consists of ASCII digits
(RE2 `\d` is `[0-9]`); the empty string matches. -/
def matchOptionalID (s : String) : Bool :=
  s.data.all Char.isDigit

/-- `colorRx.MatchString s` for `colorRx = regexp.MustCompile("^\\w*$")`
(demo/demo.go line 12): the whole string consists of RE2 word characters
`[0-9A-Za-z_]`; the empty string matches. -/
def matchColor (s : String) : Bool :=
  s.data.all (fun c => c.isAlphanum || c == '_')

/-- The new counter value written and returned by
`atomic.AddInt64(&visitors, 1)` (stepn/x.go line 27): signed 64-bit
addition of one. -/
def addInt64One (visitors : Int) : Int :=
  wrap64 (visitors + 1)

/-- `next()` as realized in stepn: one atomic fetch-and-add step mapping
the counter state to (new state, returned value); the returned value is
the new state. -/
def stepnNext (visitors : Int) : Int × Int :=
  (addInt64One visitors, addInt64One visitors)

/-- The body written by
`fmt.Fprintf(w, "<html><h1>Welcome!</h1>You are visitor number %d!", visitNum)`
(stepn/x.go line 31); `%d` renders an `int64` in decimal. -/
def welcomeBody (visitNum : Int) : String :=
  "<html><h1>Welcome!</h1>You are visitor number " ++ toString visitNum ++ "!"

/-- `handleRoot` (stepn/x.go lines 18-32) as a function from the request
and the counter state to the response and the new counter state:
reject non-GET/HEAD methods with 400 "Bad method.", reject an `id`
parameter not matching `^\d*$` with 400, otherwise increment the counter
atomically and write the greeting containing the new value. -/
def handleRoot (r : Request) (visitors : Int) : Response × Int :=
  if r.method ≠ "GET" ∧ r.method ≠ "HEAD" then
    ({ status := 400, body := "Bad method." }, visitors)
  else if ¬ matchOptionalID (formValue r "id") then
    ({ status := 400, body := "Optional numeric id is invalid" }, visitors)
  else
    let visitNum := addInt64One visitors
    ({ status := 200, body := welcomeBody visitNum }, visitNum)

/-- The body written by `handleHi` (demo/demo.go line 21):
`"<h1 style='color: " + color + "'>Welcome!</h1>You are visitor number "
 + fmt.Sprint(visitors) + "!"`. -/
def hiBody (color : String) (visitors : Int) : String :=
  "<h1 style='color: " ++ color ++ "'>Welcome!</h1>You are visitor number "
    ++ toString visitors ++ "!"

/-- `handleHi` (demo/demo.go lines 14-22) as a sequential function from
the request and the counter state to the response and the new counter
state.  The counter is `var visitors int`, Go's platform-word-sized
integer, so the embedding is parameterized by the platform word width
`w`.  Reject a `color` parameter not matching `^\w*$` with 400, otherwise
`visitors++` and write the greeting rendering `fmt.Sprint(visitors)`. -/
def handleHi (w : Nat) (r : Request) (visitors : Int) : Response × Int :=
  if ¬ matchColor (formValue r "color") then
    ({ status := 400, body := "Optional color is invalid" }, visitors)
  else
    let v := wrapI w (visitors + 1)
    ({ status := 200, body := hiBody (formValue r "color") v }, v)

/-- The width in bits of a Go integer type on a platform whose word size
is `platform` bits: `int64` is always 64 bits; plain `int` has the
platform word width (32 on 32-bit platforms, 64 on 64-bit platforms). -/
inductive GoIntTy where
  | i64
  | iPlatform
  deriving Repr, DecidableEq

/-- Bit width of a Go integer type given the platform word size. -/
def goIntBits (platform : Nat) : GoIntTy → Nat
  | .i64 => 64
  | .iPlatform => platform

/-- The declared type of `var visitors int64` (stepn/x.go line 14). -/
def stepnVisitorsTy : GoIntTy := .i64

/-- The declared type of `var visitors int` (demo/demo.go line 10). -/
def demoVisitorsTy : GoIntTy := .iPlatform

/-- The counter at process start: Go package-level integer variables are
zero-initialized. -/
def visitorsInit : Int := 0

/-- A run of increments at word width `w`: each list element is the id of
the caller performing that call in execution order, and each call is one
indivisible increment-and-fetch step (the stepn realization,
`atomic.AddInt64`).  Returns the per-call (caller, returned value) pairs
in execution order. -/
def incRun (w : Nat) : List Nat → Int → List (Nat × Int)
  | [], _ => []
  | k :: rest, c => (k, wrapI w (c + 1)) :: incRun w rest (wrapI w (c + 1))

/-- One primitive memory access of the unsynchronized `visitors++`
(demo/demo.go line 19).  Go compiles `visitors++` to a plain load of the
shared global followed by a plain store of the loaded value plus one, with
no synchronization between them, so a concurrent execution may interleave
the two accesses of different callers (the data race the talk's
race-detector output exhibits). -/
inductive RacyOp where
  | rd (caller : Nat)
  | wr (caller : Nat)
  deriving Repr, DecidableEq

/-- State of a concurrent execution of `demo`'s `visitors++`: the shared
global, the per-caller loaded value, and the values produced by the
completed calls in completion order. -/
structure RacySt where
  visitors : Int
  locals : List (Nat × Int)
  rets : List (Nat × Int)
  deriving Repr, DecidableEq

/-- Initial state of a concurrent `demo` execution: zero-initialized
counter, no loads performed, no calls completed. -/
def racyInit : RacySt :=
  { visitors := visitorsInit, locals := [], rets := [] }

/-- Execute one memory access of `visitors++` at word width `w`:
`rd k` loads the shared counter into caller `k`'s local; `wr k` stores
caller `k`'s local plus one back to the shared counter and completes
caller `k`'s call with that value. -/
def racyStep (w : Nat) (s : RacySt) : RacyOp → RacySt
  | .rd k => { s with locals := (k, s.visitors) :: s.locals }
  | .wr k =>
    let v := wrapI w (((s.locals.lookup k).getD 0) + 1)
    { s with visitors := v, rets := (k, v) :: s.rets }

/-- A concurrent execution of `demo`'s handler increments: run a
schedule of interleaved memory accesses from the initial state. -/
def racyRun (w : Nat) (sched : List RacyOp) : RacySt :=
  sched.foldl (racyStep w) racyInit

/-- The per-request effect of `handleRoot` on the counter, abstracted
from the response: `.incr` is the single atomic step
`atomic.AddInt64(&visitors, 1)` (stepn/x.go line 27); `.render n` is
`fmt.Fprintf(w, ..., n)` (stepn/x.go line 31), which reads only its
arguments and the response writer and never touches `visitors`. -/
inductive HandlerOp where
  | incr
  | render (n : Int)
  deriving Repr, DecidableEq

/-- Effect of one handler operation on the counter state. -/
def opApply (c : Int) : HandlerOp → Int
  | .incr => addInt64One c
  | .render _ => c

/-- The string emitted by a `render` operation; rendering is a pure
function of the captured value. -/
def opOutput : HandlerOp → Option String
  | .incr => none
  | .render n => some (welcomeBody n)

section Lemmas

/-- Wrapping is the identity on integers already in the signed `w`-bit
range. -/
theorem wrapI_eq_self {w : Nat} {x : Int} (hw : 1 ≤ w) (h0 : -(2 ^ (w - 1)) ≤ x)
    (h1 : x < 2 ^ (w - 1)) : wrapI w x = x := by
  unfold wrapI
  have hpow : (2 : Int) ^ (w - 1) + 2 ^ (w - 1) = 2 ^ w := by
    have : w - 1 + 1 = w := Nat.succ_pred_eq_of_pos hw
    calc (2 : Int) ^ (w - 1) + 2 ^ (w - 1) = 2 ^ (w - 1) * 2 := by ring
    _ = 2 ^ (w - 1 + 1) := by rw [pow_succ]
    _ = 2 ^ w := by rw [this]
  have hlo : 0 ≤ x + 2 ^ (w - 1) := by linarith
  have hhi : x + 2 ^ (w - 1) < 2 ^ w := by linarith
  rw [Int.emod_eq_of_lt hlo hhi]
  ring

/-- The ascending run of integers `[c + 1, c + 2, ..., c + n]`. -/
def ascFrom (c : Int) : Nat → List Int
  | 0 => []
  | n + 1 => (c + 1) :: ascFrom (c + 1) n

/-- `ascFrom` written through `List.range`. -/
theorem ascFrom_eq_range_map (c : Int) (n : Nat) :
    ascFrom c n = (List.range n).map (fun i : Nat => c + (i : Int) + 1) := by
  induction n generalizing c with
  | zero => rfl
  | succ m ih =>
    rw [ascFrom, ih (c + 1), List.range_succ_eq_map, List.map_cons,
      List.map_map]
    refine congrArg₂ _ (by push_cast; ring) ?_
    apply List.map_congr_left
    intro i _
    simp only [Function.comp_apply]
    push_cast
    ring

/-- The values returned by a run of atomic increments starting at a
counter value `c` that stays in range: the `i`-th completed call (1-based)
returns `c + i`, regardless of which caller performs it. -/
theorem incRun_map_snd (w : Nat) (hw : 1 ≤ w) :
    ∀ (sched : List Nat) (c : Int), 0 ≤ c →
      c + sched.length < 2 ^ (w - 1) →
      (incRun w sched c).map Prod.snd = ascFrom c sched.length := by
  intro sched
  induction sched with
  | nil => intro c _ _; rfl
  | cons k rest ih =>
    intro c hc hlt
    have hlen : ((k :: rest).length : Int) = (rest.length : Int) + 1 := by
      push_cast [List.length_cons]
      ring
    rw [hlen] at hlt
    have hnn : (0 : Int) ≤ (rest.length : Int) := Int.ofNat_nonneg _
    have hc1 : (0 : Int) ≤ c + 1 := by linarith
    have hc1lt : c + 1 < 2 ^ (w - 1) := by linarith
    have hwrap : wrapI w (c + 1) = c + 1 := by
      refine wrapI_eq_self hw ?_ hc1lt
      have : (0 : Int) < 2 ^ (w - 1) := by positivity
      linarith
    have hrest : (c + 1) + (rest.length : Int) < 2 ^ (w - 1) := by linarith
    rw [incRun, List.map_cons, hwrap, ih (c + 1) hc1 hrest,
      List.length_cons, ascFrom]

end Lemmas

/-- Any element of `ascFrom c n` is strictly greater than `c`. -/
theorem lt_of_mem_ascFrom : ∀ (n : Nat) (c x : Int), x ∈ ascFrom c n → c < x := by
  intro n
  induction n with
  | zero => intro c x hx; simp [ascFrom] at hx
  | succ m ih =>
    intro c x hx
    rw [ascFrom] at hx
    rcases List.mem_cons.1 hx with h | h
    · simp [h]
    · have := ih (c + 1) x h
      linarith

/-- `ascFrom c n` is strictly increasing. -/
theorem ascFrom_pairwise (n : Nat) : ∀ c : Int, List.Pairwise (· < ·) (ascFrom c n) := by
  induction n with
  | zero => intro c; simp [ascFrom]
  | succ m ih =>
    intro c
    rw [ascFrom]
    refine List.Pairwise.cons ?_ (ih (c + 1))
    intro x hx
    have := lt_of_mem_ascFrom m (c + 1) x hx
    linarith

/-- C1 (counterexample): the claim also attributes the exactly-`{1..N}`
guarantee to `demo`'s realization of the increment, the unsynchronized
`visitors++` (demo/demo.go line 19).  That realization is a data race —
the talk's own race-detector run reports it — and an interleaving of two
concurrent callers in which both load the counter before either stores
refutes the claim: two calls complete (N = 2) yet both produce the value
1, so the returned values are `[1, 1]`, with a duplicate and a gap, not
`{1, 2}`. -/
theorem demo_racy_interleaving_duplicates :
    (racyRun 64 [RacyOp.rd 0, RacyOp.rd 1, RacyOp.wr 0, RacyOp.wr 1]).rets.length = 2 ∧
    (racyRun 64 [RacyOp.rd 0, RacyOp.rd 1, RacyOp.wr 0, RacyOp.wr 1]).rets.map Prod.snd
      = [1, 1] ∧
    ¬ ((racyRun 64 [RacyOp.rd 0, RacyOp.rd 1, RacyOp.wr 0,
        RacyOp.wr 1]).rets.map Prod.snd).Nodup := by
  decide

/-- C1 (amended): for the stepn realization (`atomic.AddInt64(&visitors, 1)`,
each call one indivisible step), every schedule of N total calls from any
callers in any arrival order, with N below `2^63`, returns exactly the
values `1, 2, ..., N` in execution order — no duplicates and no gaps.
The demo realization (`visitors++`) guarantees this only for sequential
execution; under concurrency it is a data race and can return duplicate
values. -/
theorem atomic_next_returns_exact_range (sched : List Nat)
    (h : (sched.length : Int) < 2 ^ 63) :
    (incRun 64 sched 0).map Prod.snd = ascFrom 0 sched.length := by
  refine incRun_map_snd 64 (by norm_num) sched 0 le_rfl ?_
  simpa using h

/-- C1 witness: a three-call schedule from two distinct callers returns
exactly `[1, 2, 3]`. -/
theorem atomic_next_returns_exact_range_witness :
    (incRun 64 [5, 7, 5] 0).map Prod.snd = [1, 2, 3] :=
  atomic_next_returns_exact_range [5, 7, 5] (by norm_num)

/-- C2: starting from the zero-initialized counter, N sequential calls by
a single caller return exactly the sequence `1, 2, ..., N` (stated for
stepn's 64-bit counter and for demo's platform-width counter at any word
width of at least 32 bits, for call counts within range); in particular
the first call returns exactly 1. -/
theorem sequential_next_returns_one_to_n (N : Nat) (h : (N : Int) < 2 ^ 31) :
    ((incRun 64 (List.replicate N 0) 0).map Prod.snd = ascFrom 0 N) ∧
    (∀ w : Nat, 32 ≤ w →
      (incRun w (List.replicate N 0) 0).map Prod.snd = ascFrom 0 N) ∧
    (ascFrom 0 N = (List.range N).map (fun i : Nat => (i : Int) + 1)) ∧
    (0 < N → ((incRun 64 (List.replicate N 0) 0).map Prod.snd).head? = some 1) := by
  have hgen : ∀ w : Nat, 32 ≤ w →
      (incRun w (List.replicate N 0) 0).map Prod.snd = ascFrom 0 N := by
    intro w hw
    have h31 : (2 : Int) ^ 31 ≤ 2 ^ (w - 1) := by
      refine pow_le_pow_right₀ (by norm_num) ?_
      omega
    have := incRun_map_snd w (by omega) (List.replicate N 0) 0 le_rfl
      (by simp only [List.length_replicate]; linarith)
    simpa using this
  have h64 := hgen 64 (by norm_num)
  refine ⟨h64, hgen, ?_, ?_⟩
  · have := ascFrom_eq_range_map 0 N
    rw [this]
    apply List.map_congr_left
    intro i _
    ring
  · intro hpos
    rw [h64]
    rcases N with _ | m
    · omega
    · simp [ascFrom]

/-- C2 witness: four sequential calls from caller 0 return `[1, 2, 3, 4]`,
and the first call returns 1. -/
theorem sequential_next_returns_one_to_n_witness :
    ((incRun 64 (List.replicate 4 0) 0).map Prod.snd = ascFrom 0 4) ∧
    ((incRun 64 (List.replicate 4 0) 0).map Prod.snd).head? = some 1 :=
  ⟨(sequential_next_returns_one_to_n 4 (by norm_num)).1,
    (sequential_next_returns_one_to_n 4 (by norm_num)).2.2.2 (by norm_num)⟩

/-- C8: in stepn, a request whose method is neither GET nor HEAD is
answered with status 400 and the message "Bad method." passed to
`http.Error`, and the handler returns with the counter unchanged —
before the id-parameter validation and before the increment (the result
holds for every parameter list, valid or not). -/
theorem bad_method_rejected_before_validation (r : Request) (c : Int)
    (h1 : r.method ≠ "GET") (h2 : r.method ≠ "HEAD") :
    handleRoot r c = ({ status := 400, body := "Bad method." }, c) := by
  simp [handleRoot, h1, h2]

/-- C8 witness: a POST request — even one whose id parameter is invalid —
gets the 400 "Bad method." response and leaves the counter at 3. -/
theorem bad_method_rejected_before_validation_witness :
    handleRoot { method := "POST", params := [("id", "abc!")] } 3
      = ({ status := 400, body := "Bad method." }, 3) :=
  bad_method_rejected_before_validation
    { method := "POST", params := [("id", "abc!")] } 3
    (by decide) (by decide)

/-- C9 (counterexample): the claim asserts that every request with the
optional parameter absent or empty is counted, but in stepn the method
check precedes the validation: a POST request with no id parameter passes
the regex check (the empty string matches `^\d*$`) yet is rejected with
400 and does not increment the counter. -/
theorem absent_param_not_counted_on_bad_method :
    matchOptionalID (formValue { method := "POST", params := [] } "id") = true ∧
    (handleRoot { method := "POST", params := [] } 0).1.status = 400 ∧
    (handleRoot { method := "POST", params := [] } 0).2 = 0 := by
  decide

/-- C9 (amended): both validation regexes accept the empty string, so a
request that omits the optional parameter (or passes it empty) always
passes the regex validation; every such request that also passes stepn's
method check (demo has no method check) is counted: the handler
increments the counter and responds 200. -/
theorem empty_param_accepted_and_counted :
    matchOptionalID "" = true ∧
    matchColor "" = true ∧
    (∀ (r : Request) (c : Int), (r.method = "GET" ∨ r.method = "HEAD") →
      formValue r "id" = "" →
      (handleRoot r c).1.status = 200 ∧ (handleRoot r c).2 = addInt64One c) ∧
    (∀ (w : Nat) (r : Request) (c : Int), formValue r "color" = "" →
      (handleHi w r c).1.status = 200 ∧ (handleHi w r c).2 = wrapI w (c + 1)) := by
  refine ⟨by decide, by decide, ?_, ?_⟩
  · intro r c hm hid
    have hcond : ¬ (r.method ≠ "GET" ∧ r.method ≠ "HEAD") := by
      rcases hm with h | h <;> simp [h]
    have hmatch : matchOptionalID (formValue r "id") = true := by
      rw [hid]; decide
    simp [handleRoot, hcond, hmatch]
  · intro w r c hcol
    have hmatch : matchColor (formValue r "color") = true := by
      rw [hcol]; decide
    simp [handleHi, hmatch]

/-- C9 witness: a GET request with no parameters at all is accepted and
counted in both variants. -/
theorem empty_param_accepted_and_counted_witness :
    ((handleRoot { method := "GET", params := [] } 5).1.status = 200 ∧
      (handleRoot { method := "GET", params := [] } 5).2 = addInt64One 5) ∧
    ((handleHi 64 { method := "GET", params := [] } 5).1.status = 200 ∧
      (handleHi 64 { method := "GET", params := [] } 5).2 = wrapI 64 (5 + 1)) :=
  ⟨(empty_param_accepted_and_counted.2.2.1 { method := "GET", params := [] } 5
      (Or.inl rfl) rfl),
    (empty_param_accepted_and_counted.2.2.2 64 { method := "GET", params := [] } 5 rfl)⟩

/-- C3: a request whose optional parameter fails its regex validation is
answered with status 400 and the handler returns with the counter
unchanged, in both variants — the validation runs strictly before the
increment, so a rejected request never increments the counter.  (In stepn
a bad-method request with an invalid id is also answered 400 with the
counter unchanged, by the earlier method check.) -/
theorem invalid_param_rejected_without_increment (r : Request) (c : Int) (w : Nat) :
    (matchOptionalID (formValue r "id") = false →
      (handleRoot r c).1.status = 400 ∧ (handleRoot r c).2 = c) ∧
    (matchColor (formValue r "color") = false →
      (handleHi w r c).1.status = 400 ∧ (handleHi w r c).2 = c) := by
  constructor
  · intro h
    by_cases hm : r.method ≠ "GET" ∧ r.method ≠ "HEAD"
    · simp [handleRoot, hm]
    · simp [handleRoot, hm, h]
  · intro h
    simp [handleHi, h]

/-- C3 witness: a GET with a non-numeric id and a GET with a non-word
color are each rejected with 400 and leave the counter untouched. -/
theorem invalid_param_rejected_without_increment_witness :
    ((handleRoot { method := "GET", params := [("id", "x!")] } 5).1.status = 400 ∧
      (handleRoot { method := "GET", params := [("id", "x!")] } 5).2 = 5) ∧
    ((handleHi 64 { method := "GET", params := [("color", "a-b")] } 9).1.status = 400 ∧
      (handleHi 64 { method := "GET", params := [("color", "a-b")] } 9).2 = 9) :=
  ⟨(invalid_param_rejected_without_increment
      { method := "GET", params := [("id", "x!")] } 5 64).1 (by decide),
    (invalid_param_rejected_without_increment
      { method := "GET", params := [("color", "a-b")] } 9 64).2 (by decide)⟩

/-- C4: a request that passes validation increments the counter exactly
once (the new counter state is the old one plus one) and the response has
status 200 with a body containing the decimal rendering of the value
returned by that increment, in both variants. -/
theorem valid_request_increments_once_and_renders_value (r : Request) (c : Int)
    (w : Nat) :
    ((r.method = "GET" ∨ r.method = "HEAD") →
      matchOptionalID (formValue r "id") = true →
      (handleRoot r c).2 = addInt64One c ∧
      (handleRoot r c).1.status = 200 ∧
      ∃ pre post, (handleRoot r c).1.body
        = pre ++ toString (addInt64One c) ++ post) ∧
    (matchColor (formValue r "color") = true →
      (handleHi w r c).2 = wrapI w (c + 1) ∧
      (handleHi w r c).1.status = 200 ∧
      ∃ pre post, (handleHi w r c).1.body
        = pre ++ toString (wrapI w (c + 1)) ++ post) := by
  constructor
  · intro hm hid
    have hcond : ¬ (r.method ≠ "GET" ∧ r.method ≠ "HEAD") := by
      rcases hm with h | h <;> simp [h]
    have hout : handleRoot r c
        = ({ status := 200, body := welcomeBody (addInt64One c) }, addInt64One c) := by
      simp [handleRoot, hcond, hid]
    rw [hout]
    exact ⟨rfl, rfl, "<html><h1>Welcome!</h1>You are visitor number ", "!", rfl⟩
  · intro hcol
    have hout : handleHi w r c
        = ({ status := 200,
              body := hiBody (formValue r "color") (wrapI w (c + 1)) },
            wrapI w (c + 1)) := by
      simp [handleHi, hcol]
    rw [hout]
    exact ⟨rfl, rfl,
      "<h1 style='color: " ++ formValue r "color"
        ++ "'>Welcome!</h1>You are visitor number ", "!", rfl⟩

/-- C4 witness: a valid GET with id "42" (stepn) and color "red" (demo)
each increment the counter from 5 to 6 and render 6 in the body. -/
theorem valid_request_increments_once_and_renders_value_witness :
    ((handleRoot { method := "GET", params := [("id", "42")] } 5).2 = addInt64One 5 ∧
      (handleRoot { method := "GET", params := [("id", "42")] } 5).1.status = 200 ∧
      ∃ pre post, (handleRoot { method := "GET", params := [("id", "42")] } 5).1.body
        = pre ++ toString (addInt64One 5) ++ post) ∧
    ((handleHi 64 { method := "GET", params := [("color", "red")] } 5).2
        = wrapI 64 (5 + 1) ∧
      (handleHi 64 { method := "GET", params := [("color", "red")] } 5).1.status = 200 ∧
      ∃ pre post,
        (handleHi 64 { method := "GET", params := [("color", "red")] } 5).1.body
          = pre ++ toString (wrapI 64 (5 + 1)) ++ post) :=
  ⟨(valid_request_increments_once_and_renders_value
      { method := "GET", params := [("id", "42")] } 5 64).1 (Or.inl rfl) (by decide),
    (valid_request_increments_once_and_renders_value
      { method := "GET", params := [("color", "red")] } 5 64).2 (by decide)⟩

/-- C5 (counterexample): the claim says the counter is exactly 64 bits
wide in every variant, but demo declares `var visitors int` — Go's
platform-word-sized integer — so on a 32-bit platform demo's counter is
32 bits wide, not 64. -/
theorem demo_counter_not_64bit_on_32bit_platform :
    goIntBits 32 demoVisitorsTy = 32 ∧ goIntBits 32 demoVisitorsTy ≠ 64 := by
  decide

/-- C5 (amended): stepn's counter (`int64`) is exactly 64 bits on every
platform, while demo's counter (`int`) has the platform word width;
both are initialized to zero at process start, and neither handler ever
resets the counter: each request leaves it unchanged or advances it by
one increment. -/
theorem counter_width_init_and_no_reset :
    (∀ platform : Nat, goIntBits platform stepnVisitorsTy = 64) ∧
    (∀ platform : Nat, goIntBits platform demoVisitorsTy = platform) ∧
    visitorsInit = 0 ∧
    (∀ (r : Request) (c : Int),
      (handleRoot r c).2 = c ∨ (handleRoot r c).2 = addInt64One c) ∧
    (∀ (w : Nat) (r : Request) (c : Int),
      (handleHi w r c).2 = c ∨ (handleHi w r c).2 = wrapI w (c + 1)) := by
  refine ⟨fun _ => rfl, fun _ => rfl, rfl, ?_, ?_⟩
  · intro r c
    by_cases hm : r.method ≠ "GET" ∧ r.method ≠ "HEAD"
    · left; simp [handleRoot, hm]
    · by_cases hid : matchOptionalID (formValue r "id")
      · right; simp [handleRoot, hm, hid]
      · left; simp [handleRoot, hm, hid]
  · intro w r c
    by_cases hcol : matchColor (formValue r "color")
    · right; simp [handleHi, hcol]
    · left; simp [handleHi, hcol]

/-- C6: the increment is a total operation with no error result: for
every counter state it returns exactly one value, equal to the new
counter state, and once a stepn request has passed the method and
validation checks no error branch remains — the handler responds 200 for
every counter state. -/
theorem next_total_and_no_error_branch :
    (∀ c : Int, ∃ v : Int, stepnNext c = (v, v)) ∧
    (∀ c : Int, (stepnNext c).2 = addInt64One c) ∧
    (∀ (r : Request) (c : Int), (r.method = "GET" ∨ r.method = "HEAD") →
      matchOptionalID (formValue r "id") = true →
      (handleRoot r c).1.status = 200) := by
  refine ⟨fun c => ⟨addInt64One c, rfl⟩, fun c => rfl, ?_⟩
  intro r c hm hid
  have hcond : ¬ (r.method ≠ "GET" ∧ r.method ≠ "HEAD") := by
    rcases hm with h | h <;> simp [h]
  simp [handleRoot, hcond, hid]

/-- C6 witness: at counter state -7 (any state), the increment yields a
value, and a valid GET request gets a 200 response. -/
theorem next_total_and_no_error_branch_witness :
    (∃ v : Int, stepnNext (-7) = (v, v)) ∧
    (handleRoot { method := "GET", params := [] } (-7)).1.status = 200 :=
  ⟨next_total_and_no_error_branch.1 (-7),
    next_total_and_no_error_branch.2.2 { method := "GET", params := [] } (-7)
      (Or.inl rfl) (by decide)⟩

/-- C7: rendering output from a captured counter value never changes the
counter: a render step leaves the state unchanged and emits a pure
function of the captured value, any sequence of handler operations
containing no increment leaves the counter exactly where it was, and in
general the final counter state depends only on the increment operations
of the sequence — only an invocation of the increment changes it. -/
theorem render_preserves_counter :
    (∀ n c : Int, opApply c (HandlerOp.render n) = c ∧
      opOutput (HandlerOp.render n) = some (welcomeBody n)) ∧
    (∀ (ops : List HandlerOp) (c : Int),
      (∀ op ∈ ops, op ≠ HandlerOp.incr) → List.foldl opApply c ops = c) ∧
    (∀ (ops : List HandlerOp) (c : Int),
      List.foldl opApply c ops
        = List.foldl opApply c
            (ops.filter (fun op => decide (op = HandlerOp.incr)))) := by
  refine ⟨fun n c => ⟨rfl, rfl⟩, ?_, ?_⟩
  · intro ops
    induction ops with
    | nil => intro c _; rfl
    | cons op rest ih =>
      intro c hall
      have hop : op ≠ HandlerOp.incr := hall op (List.mem_cons_self op rest)
      have hstep : opApply c op = c := by
        cases op with
        | incr => exact absurd rfl hop
        | render n => rfl
      rw [List.foldl_cons, hstep]
      exact ih c (fun o ho => hall o (List.mem_cons_of_mem op ho))
  · intro ops
    induction ops with
    | nil => intro c; rfl
    | cons op rest ih =>
      intro c
      cases op with
      | incr =>
        rw [List.foldl_cons]
        have : (HandlerOp.incr :: rest).filter
            (fun op => decide (op = HandlerOp.incr))
            = HandlerOp.incr :: rest.filter (fun op => decide (op = HandlerOp.incr)) := by
          simp [List.filter]
        rw [this, List.foldl_cons]
        exact ih (opApply c HandlerOp.incr)
      | render n =>
        rw [List.foldl_cons]
        have hstep : opApply c (HandlerOp.render n) = c := rfl
        have : (HandlerOp.render n :: rest).filter
            (fun op => decide (op = HandlerOp.incr))
            = rest.filter (fun op => decide (op = HandlerOp.incr)) := by
          simp [List.filter]
        rw [this, hstep]
        exact ih c

/-- C7 witness: re-rendering the captured value 3 twice leaves the
counter at 7, and a mixed sequence of renders around one increment
changes the counter exactly as the lone increment does. -/
theorem render_preserves_counter_witness :
    List.foldl opApply 7 [HandlerOp.render 3, HandlerOp.render 3] = 7 ∧
    List.foldl opApply 7 [HandlerOp.render 3, HandlerOp.incr, HandlerOp.render 8]
      = List.foldl opApply 7
          (([HandlerOp.render 3, HandlerOp.incr, HandlerOp.render 8]).filter
            (fun op => decide (op = HandlerOp.incr))) :=
  ⟨render_preserves_counter.2.1 [HandlerOp.render 3, HandlerOp.render 3] 7 (by decide),
    render_preserves_counter.2.2 [HandlerOp.render 3, HandlerOp.incr, HandlerOp.render 8] 7⟩

/-- C10: the stepn counter is Go `int64` arithmetic, which wraps around in
two's complement rather than saturating: incrementing from `2^63 - 1`
yields `-2^63`, and `next()` at that state returns `-2^63`; consequently
the returned values are strictly increasing (in execution order) for
every schedule of fewer than `2^63` total calls from the zero-initialized
counter. -/
theorem int64_increment_wraps :
    addInt64One (2 ^ 63 - 1) = -(2 ^ 63) ∧
    stepnNext (2 ^ 63 - 1) = (-(2 ^ 63), -(2 ^ 63)) ∧
    (∀ sched : List Nat, (sched.length : Int) < 2 ^ 63 →
      List.Pairwise (· < ·) ((incRun 64 sched 0).map Prod.snd)) := by
  refine ⟨by decide, by decide, ?_⟩
  intro sched h
  have heq : (incRun 64 sched 0).map Prod.snd = ascFrom 0 sched.length := by
    refine incRun_map_snd 64 (by norm_num) sched 0 le_rfl ?_
    simpa using h
  rw [heq]
  exact ascFrom_pairwise _ _

/-- C10 witness: a concrete two-caller schedule of three calls returns
strictly increasing values, and the wraparound equation evaluates at the
boundary. -/
theorem int64_increment_wraps_witness :
    addInt64One (2 ^ 63 - 1) = -(2 ^ 63) ∧
    List.Pairwise (· < ·) ((incRun 64 [0, 1, 0] 0).map Prod.snd) :=
  ⟨int64_increment_wraps.1, int64_increment_wraps.2.2 [0, 1, 0] (by norm_num)⟩

end Yapc
